import Mathlib

/-!
Shallow embedding of the browser client in src/Frontend/script.js of the
PCI-DSS-Compliance-Assistant repository.  The DOM, the fetch transport,
the JSON codec, localStorage and the blob download are platform
primitives.  A fetch resolution is modelled by a FetchOutcome oracle
carried to the continuation; since one response has one body, the body
and its one JSON-parse outcome travel together in FetchResp.  The
localStorage slot under the fixed download-history key is modelled as
the list of entries it holds (the JSON encode/decode round trip is the
platform codec).  Everything else is translated statement by statement
from the source file.
-/

namespace Pci

/-- Findings are opaque backend records never inspected by the client
beyond emptiness (spec glossary); modelled by a concrete carrier. -/
abbrev Finding := Nat

/-- Value of a successful JSON parse, as far as the client inspects it:
an array of findings, or a non-array object whose only field the client
reads is detail (absent or a string). -/
inductive JsVal where
  | arr (findings : List Finding)
  | obj (detail : Option String)
deriving DecidableEq

/-- Outcome of JSON.parse on a response body (also of response.json). -/
inductive JsParse where
  | ok (v : JsVal)
  | throws (msg : String)
deriving DecidableEq

/-- Fields of a fetch Response that the source reads: ok, status, the
content-type header, the body text, and the parse outcome of the body. -/
structure FetchResp where
  ok : Bool
  status : Nat
  contentType : Option String
  body : String
  parse : JsParse
deriving DecidableEq

/-- Resolution of a fetch call: a response, or a rejected promise
(network failure) carrying the error message. -/
inductive FetchOutcome where
  | resp (r : FetchResp)
  | netFail (msg : String)
deriving DecidableEq

/-- One persisted download-history record (filename plus ISO timestamp
string), source lines 240-243. -/
structure HistEntry where
  filename : String
  timestamp : String
deriving DecidableEq

/-- MAX_HISTORY_ITEMS, source line 43. -/
def MAX_HISTORY_ITEMS : Nat := 10

/-- The mutable state the script reads and writes: the two state
variables (analysisResults, originalFilename), the DOM fields it
touches, and the localStorage download-history list. -/
structure St where
  analysisResults : Option JsVal
  originalFilename : String
  spinnerVisible : Bool
  analyzeButtonDisabled : Bool
  analyzeButtonLabel : String
  resultContainerVisible : Bool
  viewButtonVisible : Bool
  downloadButtonVisible : Bool
  viewButtonDisabled : Bool
  viewButtonLabel : String
  downloadButtonDisabled : Bool
  downloadButtonLabel : String
  modalVisible : Bool
  modalContent : String
  fileInputValue : String
  downloadHistory : List HistEntry
deriving DecidableEq

/-- Externally visible effects a handler performs. -/
inductive Eff where
  | analyzeRequest (filename : String)
  | formatRequest (url : String) (payload : JsVal) (filename : String)
  | alert (msg : String)
  | saveBlob (filename : String)
deriving DecidableEq

/-- Network effects are the fetch calls. -/
def Eff.isNetwork : Eff → Bool
  | analyzeRequest _ => true
  | formatRequest _ _ _ => true
  | _ => false

/-- JS String.prototype.includes on a possibly null header value (the
source always guards with contentType truthiness first). -/
def ctIncludes (ct : Option String) (sub : String) : Bool :=
  match ct with
  | none => false
  | some s => decide (sub.data <:+: s.data)

/-- String interpolation of a possibly null header value. -/
def ctText : Option String → String
  | none => "null"
  | some s => s

/-- JS line terminators, which the dot of a regex does not match. -/
def isLineTerm (c : Char) : Bool :=
  c = '\n' || c = '\r' || c = Char.ofNat 0x2028 || c = Char.ofNat 0x2029

/-- Case-insensitive character comparison (the regex i flag). -/
def lowerEq (a b : Char) : Bool := a.toLower == b.toLower

/-- Does the pattern match case-insensitively at the front of the text. -/
def ciStarts : List Char → List Char → Bool
  | [], _ => true
  | _ :: _, [] => false
  | p :: ps, c :: cs => lowerEq p c && ciStarts ps cs

/-- Lazy group scan of the regex: from a position just past the open
tag, take the shortest run of dot-matchable characters followed by the
close tag; fail on a line terminator or the end of input. -/
def lazyBody : List Char → Option (List Char)
  | [] => none
  | c :: cs =>
    if ciStarts "</pre>".data (c :: cs) then some []
    else if isLineTerm c then none
    else (lazyBody cs).map (fun g => c :: g)

/-- First match group of the source regex (open pre tag, lazy dot-run,
close pre tag, case-insensitive): leftmost start position wins, and a
start whose group cannot reach a close tag is abandoned for the next
start position. -/
def preMatch : List Char → Option (List Char)
  | [] => none
  | c :: cs =>
    if ciStarts "<pre>".data (c :: cs) then
      match lazyBody (cs.drop 4) with
      | some g => some g
      | none => preMatch cs
    else preMatch cs

/-- JS whitespace for String.prototype.trim. -/
def isJsWs (c : Char) : Bool :=
  c = ' ' || c = '\t' || c = '\n' || c = '\r' ||
  c = Char.ofNat 0x0b || c = Char.ofNat 0x0c || c = Char.ofNat 0xa0 ||
  c = Char.ofNat 0xfeff || c = Char.ofNat 0x2028 || c = Char.ofNat 0x2029

/-- JS String.prototype.trim. -/
def jsTrim (cs : List Char) : List Char :=
  ((cs.dropWhile isJsWs).reverse.dropWhile isJsWs).reverse

/-- The detail field of a parsed value; undefined on an array. -/
def jsDetail : JsVal → Option String
  | .obj d => d
  | .arr _ => none

/-- Error-message derivation shared by the three handlers (source lines
79-91, 136-148 and 188-201): a default message, then inside a try block
either the JSON branch (content type includes application/json: parsed
detail when truthy, else the raw body) or the text branch (first pre
group trimmed when present, else the body cut to 500 characters); a
parse exception leaves the default in place. -/
def errorMsgOf (baseMsg : String) (ct : Option String) (body : String)
    (parse : JsParse) : String :=
  if ctIncludes ct "application/json" then
    match parse with
    | .ok v =>
      match jsDetail v with
      | some d => if d = "" then body else d
      | none => body
    | .throws _ => baseMsg
  else
    match preMatch body.data with
    | some g => String.mk (jsTrim g)
    | none => String.mk (body.data.take 500)

/-- Error message of a failed analyze response, source lines 79-91. -/
def analysisErrorMsg (status : Nat) (ct : Option String) (body : String)
    (parse : JsParse) : String :=
  errorMsgOf ("Analysis failed (HTTP " ++ toString status ++ ")") ct body parse

/-- setLoadingState, source lines 288-297. -/
def setLoadingState (isLoading showButtons : Bool) (s : St) : St :=
  { s with
    spinnerVisible := isLoading
    analyzeButtonDisabled := isLoading
    analyzeButtonLabel := if isLoading then "ANALYZING..." else "UPLOAD & ANALYZE"
    resultContainerVisible := showButtons
    viewButtonVisible := showButtons
    downloadButtonVisible := showButtons }

/-- openModal, source lines 298-304. -/
def openModal (htmlContent : String) (s : St) : St :=
  { s with modalContent := htmlContent, modalVisible := true }

/-- The JS truth value of the test analysisResults.length === 0: zero
for an empty array, and false for an object, whose length is undefined. -/
def jsLengthIsZero : JsVal → Bool
  | .arr fs => fs.isEmpty
  | .obj _ => false

/-- API URL constants, source lines 35-37. -/
def ANALYZE_API_URL : String := "http://localhost:8000/analyze/"

def FORMAT_HTML_API_URL : String := "http://localhost:8000/format/html/"

def FORMAT_EXCEL_API_URL : String := "http://localhost:8000/format/excel/"

/-- The modal error markup of the analysis catch branch, source line 105. -/
def analysisErrorHtml (msg : String) : String :=
  "<h3>Analysis Error</h3><p>" ++ msg ++ "</p><p>Check console & backend logs.</p>"

/-- Message of the content-type guard of the analyze success path,
source line 95. -/
def expectedJsonMsg (ct : Option String) (body : String) : String :=
  "Expected JSON but received " ++ ctText ct ++ ". Resp: " ++
    String.mk (body.data.take 100) ++ "..."

/-- Synchronous part of handleFileAnalysis up to the fetch call, source
lines 66-73: enter the loading state, clear the previous results, store
the filename and issue the analyze request. -/
def analysisStart (fname : String) (s : St) : St × List Eff :=
  let s1 := setLoadingState true false s
  let s2 := { s1 with analysisResults := none, originalFilename := fname }
  (s2, [Eff.analyzeRequest fname])

/-- Catch branch of handleFileAnalysis, source lines 103-108: show the
error in the modal, null the results, leave the loading state with the
buttons shown. -/
def analysisFailState (msg : String) (s : St) : St :=
  let s1 := openModal (analysisErrorHtml msg) s
  let s2 := { s1 with analysisResults := none }
  setLoadingState false true s2

/-- Continuation of handleFileAnalysis after the fetch resolves, source
lines 75-111: the try branches on ok and on the content type, stores the
parsed results on success, routes everything else through the catch
branch, and the finally clause clears the file input. -/
def analysisResolve (o : FetchOutcome) (s : St) : St × List Eff :=
  let afterTry :=
    match o with
    | .netFail m => analysisFailState m s
    | .resp r =>
      if r.ok then
        if ctIncludes r.contentType "application/json" then
          match r.parse with
          | .ok v => setLoadingState false true { s with analysisResults := some v }
          | .throws m => analysisFailState m s
        else analysisFailState (expectedJsonMsg r.contentType r.body) s
      else analysisFailState (analysisErrorMsg r.status r.contentType r.body r.parse) s
  ({ afterTry with fileInputValue := "" }, [])

/-- Whole handleFileAnalysis run: the synchronous start followed by the
resolution of its fetch. -/
def handleFileAnalysis (fname : String) (o : FetchOutcome) (s : St) : St × List Eff :=
  let (s1, e1) := analysisStart fname s
  let (s2, e2) := analysisResolve o s1
  (s2, e1 ++ e2)

/-- The no-findings markup of handleViewHtmlReport, source line 122. -/
def noFindingsHtml (fname : String) : String :=
  "<h1>Report</h1><p><strong>Source:</strong> " ++ fname ++
    "</p><hr/><p>No findings generated.</p>"

/-- Message of the content-type guard of the view success path, source
line 152. -/
def expectedHtmlMsg (ct : Option String) (body : String) : String :=
  "Expected HTML but received " ++ ctText ct ++ ". Resp: " ++
    String.mk (body.data.take 100) ++ "..."

/-- handleViewHtmlReport, source lines 116-164: guard on missing
results, the no-findings branch, else the format/html fetch whose
response is shown in the modal; any failure is alerted, and the finally
clause restores the view button. -/
def handleViewHtmlReport (o : FetchOutcome) (s : St) : St × List Eff :=
  match s.analysisResults with
  | none => (s, [Eff.alert "No analysis data available. Please analyze a file first."])
  | some v =>
    if jsLengthIsZero v then
      (openModal (noFindingsHtml s.originalFilename) s, [])
    else
      let req := Eff.formatRequest FORMAT_HTML_API_URL v s.originalFilename
      let afterTry : St × List Eff :=
        match o with
        | .netFail m => (s, [Eff.alert ("Could not display report: " ++ m)])
        | .resp r =>
          if r.ok then
            if ctIncludes r.contentType "text/html" then
              (openModal r.body s, [])
            else
              (s, [Eff.alert ("Could not display report: " ++
                    expectedHtmlMsg r.contentType r.body)])
          else
            (s, [Eff.alert ("Could not display report: " ++
                  errorMsgOf ("HTML formatting failed (HTTP " ++ toString r.status ++ ")")
                    r.contentType r.body r.parse)])
      ({ afterTry.1 with viewButtonLabel := "View Analysis Report",
                         viewButtonDisabled := false },
       req :: afterTry.2)

/-- Spreadsheet content-type test of the download success path, source
line 205. -/
def isSpreadsheetCT (ct : Option String) : Bool :=
  ctIncludes ct "spreadsheetml" || ctIncludes ct "ms-excel"

/-- The replace of the regex that drops a terminal lowercase .xlsx or
.xls extension, source line 213: scanning start positions left to
right, the remainder matches exactly when it is one of the two
dollar-anchored alternatives, and the match is replaced by nothing. -/
def replaceXlsxExtL : List Char → List Char
  | [] => []
  | c :: cs =>
    if c :: cs = ".xlsx".data ∨ c :: cs = ".xls".data then []
    else c :: replaceXlsxExtL cs

/-- cleanFilename, source line 213. -/
def cleanFilename (name : String) : String :=
  String.mk (replaceXlsxExtL name.data)

/-- downloadFilename, source line 215. -/
def downloadFilename (name : String) : String :=
  "PCI_DSS_Action_Report_" ++ cleanFilename name ++ ".xlsx"

/-- saveDownloadToHistory, source lines 237-253: unshift the new entry
onto the stored list and keep the first MAX_HISTORY_ITEMS of it. -/
def saveDownloadToHistory (filename now : String) (h : List HistEntry) : List HistEntry :=
  (HistEntry.mk filename now :: h).take MAX_HISTORY_ITEMS

/-- handleExcelDownload, source lines 168-234: guard on missing results,
the empty-findings alert, else the format/excel fetch; a spreadsheet
response is saved under the constructed filename and recorded in the
history, any failure is alerted, and the finally clause restores the
download button. -/
def handleExcelDownload (o : FetchOutcome) (now : String) (s : St) : St × List Eff :=
  match s.analysisResults with
  | none => (s, [Eff.alert "No analysis data available to download."])
  | some v =>
    if jsLengthIsZero v then
      (s, [Eff.alert "Analysis completed, but no findings were generated to download."])
    else
      let req := Eff.formatRequest FORMAT_EXCEL_API_URL v s.originalFilename
      let afterTry : St × List Eff :=
        match o with
        | .netFail m => (s, [Eff.alert ("Could not download report: " ++ m)])
        | .resp r =>
          if r.ok then
            if isSpreadsheetCT r.contentType then
              let fname := downloadFilename s.originalFilename
              ({ s with downloadHistory := saveDownloadToHistory fname now s.downloadHistory },
               [Eff.saveBlob fname])
            else
              (s, [Eff.alert ("Could not download report: Expected Excel file but received " ++
                    ctText r.contentType ++ ". Resp: " ++
                    String.mk (r.body.data.take 100) ++ "...")])
          else
            (s, [Eff.alert ("Could not download report: " ++
                  errorMsgOf ("Excel generation failed (HTTP " ++ toString r.status ++ ")")
                    r.contentType r.body r.parse)])
      ({ afterTry.1 with downloadButtonLabel := "Download Report",
                         downloadButtonDisabled := false },
       req :: afterTry.2)

/-- History state after a sequence of successful downloads, each giving
a saved filename and a timestamp. -/
def runHistory (init : List HistEntry) (ops : List (String × String)) : List HistEntry :=
  ops.foldl (fun h p => saveDownloadToHistory p.1 p.2 h) init

/-- Event-level model for overlapping analyze calls: the page state plus
the set of in-flight analyze requests, numbered in order of issue. -/
structure Sys where
  st : St
  issued : Nat
  pending : List Nat
deriving DecidableEq

/-- An event: a file selection starting an analysis, or the resolution
of the fetch of a given in-flight request. -/
inductive Ev where
  | start (fname : String)
  | resolve (id : Nat) (o : FetchOutcome)

/-- One event step.  A start runs the synchronous part of
handleFileAnalysis and registers the new request.  A resolution of an
in-flight request runs the continuation on the current page state: the
source keeps no session token, so the continuation is applied no matter
which request it belongs to. -/
def sysStep (s : Sys) (e : Ev) : Sys :=
  match e with
  | .start fname =>
    { st := (analysisStart fname s.st).1
      issued := s.issued + 1
      pending := s.pending ++ [s.issued] }
  | .resolve i o =>
    if i ∈ s.pending then
      { st := (analysisResolve o s.st).1
        issued := s.issued
        pending := s.pending.erase i }
    else s

/-- Run of a list of events. -/
def sysRun (s : Sys) (es : List Ev) : Sys := es.foldl sysStep s

/-- Page state right after DOMContentLoaded. -/
def initSt : St :=
  { analysisResults := none
    originalFilename := ""
    spinnerVisible := false
    analyzeButtonDisabled := false
    analyzeButtonLabel := "UPLOAD & ANALYZE"
    resultContainerVisible := false
    viewButtonVisible := false
    downloadButtonVisible := false
    viewButtonDisabled := false
    viewButtonLabel := "View Analysis Report"
    downloadButtonDisabled := false
    downloadButtonLabel := "Download Report"
    modalVisible := false
    modalContent := ""
    fileInputValue := ""
    downloadHistory := [] }

/-- Initial system: nothing issued, nothing pending. -/
def initSys : Sys := { st := initSt, issued := 0, pending := [] }

/-- The JS truth value of errorData.detail: present and not the empty
string. -/
def jsDetailTruthy : JsVal → Bool
  | .obj (some d) => d != ""
  | _ => false

/-- Failure of a view-report fetch: a rejected promise, a non-ok
response, or a response whose content type fails the text/html check. -/
def viewRespFails : FetchOutcome → Prop
  | .netFail _ => True
  | .resp r => r.ok = false ∨ ctIncludes r.contentType "text/html" = false

/-- Failure of a download fetch: a rejected promise, a non-ok response,
or a response whose content type fails the spreadsheet check. -/
def dlRespFails : FetchOutcome → Prop
  | .netFail _ => True
  | .resp r => r.ok = false ∨ isSpreadsheetCT r.contentType = false

/-- A successful analyze response carrying one finding. -/
def okFindingsResp : FetchOutcome :=
  .resp { ok := true, status := 200, contentType := some "application/json",
          body := "[1]", parse := .ok (.arr [1]) }

/-- A failed analyze response, an HTTP 500 with a plain text body. -/
def staleFailResp : FetchOutcome :=
  .resp { ok := false, status := 500, contentType := none,
          body := "boom", parse := .throws "parse error" }

/-- Two overlapping analyze calls whose responses arrive out of order:
the second, most recently issued call resolves first and succeeds, then
the superseded first call resolves with a failure. -/
def raceTrace : List Ev :=
  [.start "a.txt", .start "b.txt", .resolve 1 okFindingsResp, .resolve 0 staleFailResp]

/-- A page state holding a one-finding analysis of report.xlsx. -/
def readySt : St :=
  { initSt with analysisResults := some (JsVal.arr [1]), originalFilename := "report.xlsx" }

/-- A page state holding a zero-finding analysis. -/
def emptySt : St := { initSt with analysisResults := some (JsVal.arr []) }

/-- A successful format/excel response with the spreadsheet MIME type. -/
def excelOkResp : FetchOutcome :=
  .resp { ok := true, status := 200,
          contentType := some "application/vnd.openxmlformats-officedocument.spreadsheetml.sheet",
          body := "", parse := .throws "binary body" }

/-- An error body of 507 characters that is valid JSON (an array amid
whitespace) with no detail field and no pre section. -/
def longJsonArrayBody : String := String.mk ('[' :: (List.replicate 505 ' ' ++ [']']))

set_option maxRecDepth 4000

lemma take_min_aux (x : HistEntry) (l : List HistEntry) (m : Nat) (hm : m ≤ 10) :
    (x :: l.take 9).take m = (x :: l).take m := by
  cases m with
  | zero => rfl
  | succ m =>
    simp only [List.take_succ_cons, List.take_take]
    have h : min m 9 = m := by omega
    rw [h]

lemma take10_append (L : List HistEntry) (x : HistEntry) (l : List HistEntry) :
    (L ++ x :: l.take 9).take 10 = (L ++ x :: l).take 10 := by
  rw [List.take_append_eq_append_take, List.take_append_eq_append_take]
  congr 1
  exact take_min_aux x l (10 - L.length) (Nat.sub_le 10 L.length)

lemma save_eq (f now : String) (l : List HistEntry) :
    saveDownloadToHistory f now l = HistEntry.mk f now :: l.take 9 := by
  simp [saveDownloadToHistory, MAX_HISTORY_ITEMS, List.take_succ_cons]

lemma runHistory_closed (ops : List (String × String)) (init : List HistEntry)
    (h : init.length ≤ 10) :
    runHistory init ops = ((ops.map fun p => HistEntry.mk p.1 p.2).reverse ++ init).take 10 := by
  induction ops generalizing init with
  | nil => simp [runHistory, List.take_of_length_le h]
  | cons p ops ih =>
    have hsave : (saveDownloadToHistory p.1 p.2 init).length ≤ 10 := by
      simp [saveDownloadToHistory, MAX_HISTORY_ITEMS]
    have hstep : runHistory init (p :: ops)
        = runHistory (saveDownloadToHistory p.1 p.2 init) ops := rfl
    rw [hstep, ih _ hsave, save_eq, take10_append]
    simp [List.reverse_cons, List.append_assoc]

lemma suffix_cons {p : List Char} {c : Char} {cs : List Char} (h : p <:+ cs) :
    p <:+ c :: cs := by
  obtain ⟨t, ht⟩ := h
  exact ⟨c :: t, by simp [ht]⟩

lemma replace_cons_ne (c : Char) (cs : List Char)
    (h1 : ¬ (c :: cs = ".xlsx".data)) (h2 : ¬ (c :: cs = ".xls".data)) :
    replaceXlsxExtL (c :: cs) = c :: replaceXlsxExtL cs := by
  simp only [replaceXlsxExtL]
  rw [if_neg]
  rintro (h | h)
  · exact h1 h
  · exact h2 h

lemma replace_eq_self {cs : List Char} (h1 : ¬ (".xlsx".data <:+ cs))
    (h2 : ¬ (".xls".data <:+ cs)) : replaceXlsxExtL cs = cs := by
  induction cs with
  | nil => rfl
  | cons c cs ih =>
    rw [replace_cons_ne c cs (fun h => h1 ⟨[], by simp [h]⟩) (fun h => h2 ⟨[], by simp [h]⟩)]
    rw [ih (fun hs => h1 (suffix_cons hs)) (fun hs => h2 (suffix_cons hs))]

lemma replace_append_xlsx (stem : List Char) :
    replaceXlsxExtL (stem ++ ".xlsx".data) = stem := by
  induction stem with
  | nil => decide
  | cons c stem ih =>
    have h1 : ¬ (c :: (stem ++ ".xlsx".data) = ".xlsx".data) := by
      intro h
      have hlen := congrArg List.length h
      have e1 : ".xlsx".data.length = 5 := rfl
      simp only [List.length_cons, List.length_append, e1] at hlen
      omega
    have h2 : ¬ (c :: (stem ++ ".xlsx".data) = ".xls".data) := by
      intro h
      have hlen := congrArg List.length h
      have e1 : ".xlsx".data.length = 5 := rfl
      have e2 : ".xls".data.length = 4 := rfl
      simp only [List.length_cons, List.length_append, e1, e2] at hlen
      omega
    rw [List.cons_append, replace_cons_ne c _ h1 h2, ih]

lemma replace_append_xls (stem : List Char) :
    replaceXlsxExtL (stem ++ ".xls".data) = stem := by
  induction stem with
  | nil => decide
  | cons c stem ih =>
    have h1 : ¬ (c :: (stem ++ ".xls".data) = ".xlsx".data) := by
      intro h
      cases stem with
      | nil =>
        simp only [List.nil_append] at h
        injection h with hc hrest
        exact absurd hrest (by decide)
      | cons d stem2 =>
        have hlen := congrArg List.length h
        have e1 : ".xls".data.length = 4 := rfl
        have e2 : ".xlsx".data.length = 5 := rfl
        simp only [List.length_cons, List.length_append, e1, e2] at hlen
        omega
    have h2 : ¬ (c :: (stem ++ ".xls".data) = ".xls".data) := by
      intro h
      have hlen := congrArg List.length h
      have e2 : ".xls".data.length = 4 := rfl
      simp only [List.length_cons, List.length_append, e2] at hlen
      omega
    rw [List.cons_append, replace_cons_ne c _ h1 h2, ih]

/-- Claim C1: the spec requires that the resolution of a superseded
StartAnalysis call is never applied to the status/result state.  The
source keeps no session token, so on the trace where a second analysis
starts while the first is in flight, the newest call resolves first
with one finding, and then the stale first call resolves with an HTTP
failure, the stale resolution is applied: it nulls the stored result of
the newest call and shows the analysis-error modal. -/
theorem c1_stale_resolution_applied :
    (sysRun initSys (raceTrace.take 2)).pending = [0, 1]
    ∧ (sysRun initSys (raceTrace.take 3)).st.analysisResults = some (JsVal.arr [1])
    ∧ (sysRun initSys raceTrace).st.analysisResults = none
    ∧ (sysRun initSys raceTrace).st.modalVisible = true := by
  exact ⟨rfl, rfl, rfl, rfl⟩

/-- Claim C2, counterexample: a failed analyze response whose body is
valid JSON (so the parse succeeds) but has no detail field, declared as
application/json, with 507 characters and no pre section.  The claim
would give a preview of at most 500 characters, but the code returns
the full raw body. -/
theorem c2_claim_counterexample :
    analysisErrorMsg 500 (some "application/json") longJsonArrayBody (.ok (.arr []))
      = longJsonArrayBody
    ∧ 500 < (analysisErrorMsg 500 (some "application/json") longJsonArrayBody
        (.ok (.arr []))).length
    ∧ preMatch longJsonArrayBody.data = none := by
  refine ⟨rfl, by decide, by decide⟩

/-- Claim C2, amended: the rule dispatches on the declared content
type, not on the body shape.  If the content type includes
application/json: a parsed, non-empty detail is the message; any other
successful parse leaves the full, untruncated raw body; a parse
exception leaves the default HTTP-status message.  If not: the first
pre-delimited single-line text, trimmed, when present, else the raw
body truncated to at most 500 characters. -/
theorem c2_amended_rule (status : Nat) (ct : Option String) (body : String) :
    (∀ d, ctIncludes ct "application/json" = true → d ≠ "" →
        analysisErrorMsg status ct body (.ok (.obj (some d))) = d)
    ∧ (∀ v, ctIncludes ct "application/json" = true → jsDetailTruthy v = false →
        analysisErrorMsg status ct body (.ok v) = body)
    ∧ (∀ m, ctIncludes ct "application/json" = true →
        analysisErrorMsg status ct body (.throws m)
          = "Analysis failed (HTTP " ++ toString status ++ ")")
    ∧ (∀ parse g, ctIncludes ct "application/json" = false → preMatch body.data = some g →
        analysisErrorMsg status ct body parse = String.mk (jsTrim g))
    ∧ (∀ parse, ctIncludes ct "application/json" = false → preMatch body.data = none →
        analysisErrorMsg status ct body parse = String.mk (body.data.take 500)
        ∧ (analysisErrorMsg status ct body parse).length ≤ 500) := by
  refine ⟨?_, ?_, ?_, ?_, ?_⟩
  · intro d hct hd
    simp [analysisErrorMsg, errorMsgOf, hct, jsDetail, hd]
  · intro v hct hv
    cases v with
    | arr fs => simp [analysisErrorMsg, errorMsgOf, hct, jsDetail]
    | obj d =>
      cases d with
      | none => simp [analysisErrorMsg, errorMsgOf, hct, jsDetail]
      | some d =>
        simp only [jsDetailTruthy, bne_eq_false_iff_eq] at hv
        simp [analysisErrorMsg, errorMsgOf, hct, jsDetail, hv]
  · intro m hct
    simp [analysisErrorMsg, errorMsgOf, hct]
  · intro parse g hct hg
    simp [analysisErrorMsg, errorMsgOf, hct, hg]
  · intro parse hct hpre
    refine ⟨by simp [analysisErrorMsg, errorMsgOf, hct, hpre], ?_⟩
    simp [analysisErrorMsg, errorMsgOf, hct, hpre]

/-- Witness for the amended C2 rule: the detail case and the trimmed
pre-section case at concrete responses. -/
theorem c2_amended_rule_w :
    analysisErrorMsg 500 (some "application/json") "irrelevant" (.ok (.obj (some "bad file")))
      = "bad file"
    ∧ analysisErrorMsg 500 (some "text/html") "<html><pre> boom </pre></html>" (.throws "m")
      = "boom" := by
  constructor
  · exact (c2_amended_rule 500 (some "application/json") "irrelevant").1 "bad file"
      (by decide) (by decide)
  · have h := (c2_amended_rule 500 (some "text/html") "<html><pre> boom </pre></html>").2.2.2.1
      (JsParse.throws "m") " boom ".data (by decide) (by decide)
    rw [h]
    decide

/-- Claim C3: starting from any persisted log of at most 10 entries,
every successful download keeps the log at no more than 10 entries; the
log equals the new entries, newest first, in front of the initial ones,
cut to 10; and each save only puts the new entry at the head and keeps
an unchanged front segment of the previous log. -/
theorem c3_history_invariants (init : List HistEntry) (h : init.length ≤ 10)
    (ops : List (String × String)) :
    (∀ n : Nat, (runHistory init (ops.take n)).length ≤ 10)
    ∧ runHistory init ops = ((ops.map fun p => HistEntry.mk p.1 p.2).reverse ++ init).take 10
    ∧ ∀ f now l, saveDownloadToHistory f now l = HistEntry.mk f now :: l.take 9
        ∧ (l.take 9) <+: l := by
  refine ⟨?_, runHistory_closed ops init h, ?_⟩
  · intro n
    rw [runHistory_closed (ops.take n) init h]
    exact List.length_take_le _ _
  · intro f now l
    exact ⟨save_eq f now l, ⟨l.drop 9, List.take_append_drop 9 l⟩⟩

/-- Witness for C3 at the empty initial log and one download. -/
theorem c3_history_invariants_w :
    (([] : List HistEntry).length ≤ 10)
    ∧ ((∀ n : Nat,
          (runHistory [] (([("a.xlsx", "t1")] : List (String × String)).take n)).length ≤ 10)
       ∧ runHistory [] ([("a.xlsx", "t1")] : List (String × String))
           = ((([("a.xlsx", "t1")] : List (String × String)).map
                fun (p : String × String) => HistEntry.mk p.1 p.2).reverse ++ []).take 10
       ∧ ∀ f now l, saveDownloadToHistory f now l = HistEntry.mk f now :: l.take 9
           ∧ (l.take 9) <+: l) :=
  ⟨by decide, c3_history_invariants [] (by decide) [("a.xlsx", "t1")]⟩

/-- Claim C4: with no stored analysis result, both the view and the
download handler return the state unchanged with only an alert, and no
network effect is emitted. -/
theorem c4_not_ready_guard (o o' : FetchOutcome) (now : String) (s : St)
    (h : s.analysisResults = none) :
    handleViewHtmlReport o s
      = (s, [Eff.alert "No analysis data available. Please analyze a file first."])
    ∧ handleExcelDownload o' now s
      = (s, [Eff.alert "No analysis data available to download."])
    ∧ (∀ e ∈ (handleViewHtmlReport o s).2, e.isNetwork = false)
    ∧ (∀ e ∈ (handleExcelDownload o' now s).2, e.isNetwork = false) := by
  refine ⟨?_, ?_, ?_, ?_⟩
  · simp [handleViewHtmlReport, h]
  · simp [handleExcelDownload, h]
  · simp [handleViewHtmlReport, h, Eff.isNetwork]
  · simp [handleExcelDownload, h, Eff.isNetwork]

/-- Witness for C4 at the initial page state. -/
theorem c4_not_ready_guard_w :
    initSt.analysisResults = none
    ∧ (handleViewHtmlReport (.netFail "x") initSt
        = (initSt, [Eff.alert "No analysis data available. Please analyze a file first."])
       ∧ handleExcelDownload (.netFail "y") "t" initSt
        = (initSt, [Eff.alert "No analysis data available to download."])
       ∧ (∀ e ∈ (handleViewHtmlReport (.netFail "x") initSt).2, e.isNetwork = false)
       ∧ (∀ e ∈ (handleExcelDownload (.netFail "y") "t" initSt).2, e.isNetwork = false)) :=
  ⟨rfl, c4_not_ready_guard (.netFail "x") (.netFail "y") "t" initSt rfl⟩

/-- Claim C5: with a stored zero-finding result, the download handler
returns the state unchanged with only the nothing-to-download alert and
emits no network effect. -/
theorem c5_empty_download_guard (o : FetchOutcome) (now : String) (s : St)
    (h : s.analysisResults = some (JsVal.arr [])) :
    handleExcelDownload o now s
      = (s, [Eff.alert "Analysis completed, but no findings were generated to download."])
    ∧ (∀ e ∈ (handleExcelDownload o now s).2, e.isNetwork = false) := by
  refine ⟨?_, ?_⟩
  · simp [handleExcelDownload, h, jsLengthIsZero]
  · simp [handleExcelDownload, h, jsLengthIsZero, Eff.isNetwork]

/-- Witness for C5 at a zero-finding page state. -/
theorem c5_empty_download_guard_w :
    emptySt.analysisResults = some (JsVal.arr [])
    ∧ (handleExcelDownload (.netFail "x") "t" emptySt
        = (emptySt, [Eff.alert "Analysis completed, but no findings were generated to download."])
       ∧ (∀ e ∈ (handleExcelDownload (.netFail "x") "t" emptySt).2, e.isNetwork = false)) :=
  ⟨rfl, c5_empty_download_guard (.netFail "x") "t" emptySt rfl⟩

/-- Claim C6: with a stored zero-finding result, the view handler opens
the modal on the deterministic no-findings markup built from the stored
filename, and emits no network effect. -/
theorem c6_empty_view_no_findings (o : FetchOutcome) (s : St)
    (h : s.analysisResults = some (JsVal.arr [])) :
    handleViewHtmlReport o s = (openModal (noFindingsHtml s.originalFilename) s, [])
    ∧ (handleViewHtmlReport o s).1.modalContent = noFindingsHtml s.originalFilename
    ∧ (handleViewHtmlReport o s).1.modalVisible = true
    ∧ (∀ e ∈ (handleViewHtmlReport o s).2, e.isNetwork = false) := by
  refine ⟨?_, ?_, ?_, ?_⟩
  · simp [handleViewHtmlReport, h, jsLengthIsZero]
  · simp [handleViewHtmlReport, h, jsLengthIsZero, openModal]
  · simp [handleViewHtmlReport, h, jsLengthIsZero, openModal]
  · simp [handleViewHtmlReport, h, jsLengthIsZero]

/-- Witness for C6 at a zero-finding page state. -/
theorem c6_empty_view_no_findings_w :
    emptySt.analysisResults = some (JsVal.arr [])
    ∧ (handleViewHtmlReport (.netFail "x") emptySt
        = (openModal (noFindingsHtml emptySt.originalFilename) emptySt, [])
       ∧ (handleViewHtmlReport (.netFail "x") emptySt).1.modalContent
           = noFindingsHtml emptySt.originalFilename
       ∧ (handleViewHtmlReport (.netFail "x") emptySt).1.modalVisible = true
       ∧ (∀ e ∈ (handleViewHtmlReport (.netFail "x") emptySt).2, e.isNetwork = false)) :=
  ⟨rfl, c6_empty_view_no_findings (.netFail "x") emptySt rfl⟩

/-- Claim C7: whatever the resolution of an analysis run, afterwards
the analyze button is enabled with its label restored and the file
input is cleared. -/
theorem c7_controls_restored (fname : String) (o : FetchOutcome) (s : St) :
    (handleFileAnalysis fname o s).1.analyzeButtonDisabled = false
    ∧ (handleFileAnalysis fname o s).1.analyzeButtonLabel = "UPLOAD & ANALYZE"
    ∧ (handleFileAnalysis fname o s).1.fileInputValue = "" := by
  cases o with
  | netFail m => exact ⟨rfl, rfl, rfl⟩
  | resp r =>
    rcases r with ⟨ok, status, ct, body, parse⟩
    cases ok
    · exact ⟨rfl, rfl, rfl⟩
    · cases hct : ctIncludes ct "application/json" with
      | false =>
        refine ⟨?_, ?_, ?_⟩ <;>
          simp [handleFileAnalysis, analysisStart, analysisResolve, analysisFailState,
            setLoadingState, openModal, hct]
      | true =>
        cases parse <;>
          (refine ⟨?_, ?_, ?_⟩ <;>
            simp [handleFileAnalysis, analysisStart, analysisResolve, analysisFailState,
              setLoadingState, openModal, hct])

/-- Claim C8: when a view or download fetch fails in any way, the
stored findings and filename are untouched, the triggering button is
re-enabled, and the failure is surfaced as an alert. -/
theorem c8_failure_keeps_session (o1 o2 : FetchOutcome) (now : String) (s : St) (v : JsVal)
    (hres : s.analysisResults = some v) (hne : jsLengthIsZero v = false)
    (hf1 : viewRespFails o1) (hf2 : dlRespFails o2) :
    ((handleViewHtmlReport o1 s).1.analysisResults = s.analysisResults
     ∧ (handleViewHtmlReport o1 s).1.originalFilename = s.originalFilename
     ∧ (handleViewHtmlReport o1 s).1.viewButtonDisabled = false
     ∧ ∃ m, Eff.alert m ∈ (handleViewHtmlReport o1 s).2)
    ∧ ((handleExcelDownload o2 now s).1.analysisResults = s.analysisResults
     ∧ (handleExcelDownload o2 now s).1.originalFilename = s.originalFilename
     ∧ (handleExcelDownload o2 now s).1.downloadButtonDisabled = false
     ∧ ∃ m, Eff.alert m ∈ (handleExcelDownload o2 now s).2) := by
  constructor
  · cases o1 with
    | netFail m =>
      refine ⟨?_, ?_, ?_, ?_⟩ <;>
        simp [handleViewHtmlReport, hres, hne]
    | resp r =>
      have hcase : r.ok = false
          ∨ (r.ok = true ∧ ctIncludes r.contentType "text/html" = false) := by
        rcases hf1 with h | h
        · exact Or.inl h
        · cases hok : r.ok
          · exact Or.inl rfl
          · exact Or.inr ⟨rfl, h⟩
      rcases hcase with hok | ⟨hok, hct⟩
      · refine ⟨?_, ?_, ?_, ?_⟩ <;>
          simp [handleViewHtmlReport, hres, hne, hok]
      · refine ⟨?_, ?_, ?_, ?_⟩ <;>
          simp [handleViewHtmlReport, hres, hne, hok, hct]
  · cases o2 with
    | netFail m =>
      refine ⟨?_, ?_, ?_, ?_⟩ <;>
        simp [handleExcelDownload, hres, hne]
    | resp r =>
      have hcase : r.ok = false
          ∨ (r.ok = true ∧ isSpreadsheetCT r.contentType = false) := by
        rcases hf2 with h | h
        · exact Or.inl h
        · cases hok : r.ok
          · exact Or.inl rfl
          · exact Or.inr ⟨rfl, h⟩
      rcases hcase with hok | ⟨hok, hct⟩
      · refine ⟨?_, ?_, ?_, ?_⟩ <;>
          simp [handleExcelDownload, hres, hne, hok]
      · refine ⟨?_, ?_, ?_, ?_⟩ <;>
          simp [handleExcelDownload, hres, hne, hok, hct]

/-- Witness for C8 on an HTTP 500 during both view and download at a
one-finding page state. -/
theorem c8_failure_keeps_session_w :
    readySt.analysisResults = some (JsVal.arr [1])
    ∧ (((handleViewHtmlReport (.netFail "down") readySt).1.analysisResults
          = readySt.analysisResults
        ∧ (handleViewHtmlReport (.netFail "down") readySt).1.originalFilename
          = readySt.originalFilename
        ∧ (handleViewHtmlReport (.netFail "down") readySt).1.viewButtonDisabled = false
        ∧ ∃ m, Eff.alert m ∈ (handleViewHtmlReport (.netFail "down") readySt).2)
       ∧ ((handleExcelDownload staleFailResp "t" readySt).1.analysisResults
          = readySt.analysisResults
        ∧ (handleExcelDownload staleFailResp "t" readySt).1.originalFilename
          = readySt.originalFilename
        ∧ (handleExcelDownload staleFailResp "t" readySt).1.downloadButtonDisabled = false
        ∧ ∃ m, Eff.alert m ∈ (handleExcelDownload staleFailResp "t" readySt).2)) :=
  ⟨rfl, c8_failure_keeps_session (.netFail "down") staleFailResp "t" readySt
    (JsVal.arr [1]) rfl rfl trivial (Or.inl rfl)⟩

/-- Claim C9: for the source file report.xlsx the constructed download
name is the fixed prefixed name, and the successful download handler
saves the blob under exactly that name. -/
theorem c9_download_filename_report :
    downloadFilename "report.xlsx" = "PCI_DSS_Action_Report_report.xlsx"
    ∧ Eff.saveBlob "PCI_DSS_Action_Report_report.xlsx"
        ∈ (handleExcelDownload excelOkResp "2024-01-01T00:00:00Z" readySt).2 := by
  exact ⟨by decide, by decide⟩

/-- Claim C10: the name construction strips only a terminal lowercase
.xlsx or .xls; any name without such a suffix, uppercase extensions
included, is embedded whole and unsanitized between the fixed head and
the .xlsx tail, and names with such a suffix lose exactly it. -/
theorem c10_extension_handling (name : String)
    (h1 : ¬ (".xlsx".data <:+ name.data)) (h2 : ¬ (".xls".data <:+ name.data)) :
    downloadFilename name = "PCI_DSS_Action_Report_" ++ name ++ ".xlsx"
    ∧ (∀ stem : String,
        downloadFilename (stem ++ ".xlsx") = "PCI_DSS_Action_Report_" ++ stem ++ ".xlsx"
        ∧ downloadFilename (stem ++ ".xls") = "PCI_DSS_Action_Report_" ++ stem ++ ".xlsx") := by
  constructor
  · unfold downloadFilename cleanFilename
    rw [replace_eq_self h1 h2]
  · intro stem
    constructor
    · unfold downloadFilename cleanFilename
      have hd : ((stem ++ ".xlsx" : String)).data = stem.data ++ ".xlsx".data := rfl
      rw [hd, replace_append_xlsx]
    · unfold downloadFilename cleanFilename
      have hd : ((stem ++ ".xls" : String)).data = stem.data ++ ".xls".data := rfl
      rw [hd, replace_append_xls]

/-- Witness for C10 at the name data.pdf, which keeps its extension. -/
theorem c10_extension_handling_w :
    (¬ (".xlsx".data <:+ "data.pdf".data))
    ∧ (¬ (".xls".data <:+ "data.pdf".data))
    ∧ (downloadFilename "data.pdf" = "PCI_DSS_Action_Report_" ++ "data.pdf" ++ ".xlsx"
       ∧ (∀ stem : String,
           downloadFilename (stem ++ ".xlsx") = "PCI_DSS_Action_Report_" ++ stem ++ ".xlsx"
           ∧ downloadFilename (stem ++ ".xls") = "PCI_DSS_Action_Report_" ++ stem ++ ".xlsx")) :=
  ⟨by decide, by decide, c10_extension_handling "data.pdf" (by decide) (by decide)⟩

end Pci
